import Mathlib

/-!
Verification of the fogstar-exporter protocol layer: a shallow embedding of
the field decoder (`convert`), the telemetry parser (`handle_response`), the
frame assembler (`notification_handler`), the poll loop (`poll`), and the
reconnection supervisor (`main`) from `fogstar_exporter.py`, together with
theorems settling the specification claims.

Real arithmetic is modelled exactly over the rationals.  Because the
library's rational addition and multiplication are irreducible, the value
computed by `convert` is defined through the smart constructor `mkRat`;
the theorem `convVal_formula` proves it equal to the textbook
`(raw + offset) * scale` of the source.
-/

namespace Fogstar

/-- Python slice `data[a:b]` for nonnegative indices: the elements at
positions `a ≤ k < b`, clipped to the length of the list. -/
def pySlice (data : List Nat) (a b : Nat) : List Nat :=
  (data.take b).drop a

/-- Big-endian unsigned interpretation of a byte string, as computed by
Python int.from_bytes with byteorder big; the empty string decodes to 0. -/
def bytesToNat (data : List Nat) : Nat :=
  data.foldl (fun acc b => acc * 256 + b) 0

/-- Big-endian interpretation with optional two-complement sign, as computed
by Python int.from_bytes with the signed flag; the empty string decodes to 0
in both modes. -/
def bytesToInt (data : List Nat) (signed : Bool) : Int :=
  if signed = true ∧ data ≠ [] ∧ 2 ^ (8 * data.length - 1) ≤ bytesToNat data then
    (bytesToNat data : Int) - 2 ^ (8 * data.length)
  else
    (bytesToNat data : Int)

/-- The arithmetic performed by `convert` before validation:
`(int.from_bytes(data, "big", signed) + offset) * scale`, computed on exact
rationals through `mkRat` (see `convVal_formula`). -/
def convVal (data : List Nat) (signed : Bool) (scale offset : ℚ) : ℚ :=
  mkRat ((bytesToInt data signed * offset.den + offset.num) * scale.num)
    (offset.den * scale.den)

/-- A failed field decode, as raised by `convert` through ValueError: the
out-of-range result together with the violated bound. -/
inductive DecodeError where
  | belowMin (result minVal : ℚ)
  | aboveMax (result maxVal : ℚ)
deriving DecidableEq

/-- The `convert` function of the source: big-endian decode, affine
adjustment, then validation that raises when the result is strictly below
`minVal` or strictly above `maxVal`. -/
def convert (data : List Nat) (signed : Bool) (minVal maxVal scale offset : ℚ) :
    Except DecodeError ℚ :=
  if convVal data signed scale offset < minVal then
    Except.error (DecodeError.belowMin (convVal data signed scale offset) minVal)
  else if convVal data signed scale offset > maxVal then
    Except.error (DecodeError.aboveMax (convVal data signed scale offset) maxVal)
  else Except.ok (convVal data signed scale offset)

/-- The two labels used on the capacity gauge. -/
inductive CapacityKind where
  | remaining
  | full
deriving DecidableEq

/-- Observable effects of the exporter: the gauge updates of
`handle_response`, the error logging and error counter, and the waits and
characteristic writes of the poll loop. -/
inductive Event where
  | setVoltage (v : ℚ)
  | setCurrent (v : ℚ)
  | setCapacity (kind : CapacityKind) (v : ℚ)
  | setCycles (v : ℚ)
  | setTemperature (i : Nat) (v : ℚ)
  | setLastFetch
  | logError (frame : List Nat)
  | errorInc
  | subscribe
  | sleep (t : Nat)
  | write (payload : List Nat)
deriving DecidableEq

/-- One statement of the form gauge.set(convert(...)): on success the gauge
update is performed, on failure the ValueError escapes with no update. -/
def setStep (mk : ℚ → Event) (r : Except DecodeError ℚ) :
    List Event × Option DecodeError :=
  match r with
  | Except.ok v => ([mk v], none)
  | Except.error e => ([], some e)

/-- Sequencing of two effectful computations under Python exception
semantics: once an exception is raised, later statements do not run, and the
effects already performed remain. -/
def andThen (r k : List Event × Option DecodeError) :
    List Event × Option DecodeError :=
  match r with
  | (evs, some e) => (evs, some e)
  | (evs, none) => (evs ++ k.1, k.2)

/-- The temperature loop of `handle_response`: iteration `i` decodes the
slice `data[23 + i*2 : i*2 + 25]` unsigned with scale 0.1 and offset -2731,
with `n` iterations remaining. -/
def tempLoopAux (data : List Nat) (i n : Nat) : List Event × Option DecodeError :=
  match n with
  | 0 => ([], none)
  | Nat.succ m =>
      andThen
        (setStep (Event.setTemperature i)
          (convert (pySlice data (23 + i * 2) (i * 2 + 25)) false (-30) 100
            (mkRat 1 10) (mkRat (-2731) 1)))
        (tempLoopAux data (i + 1) m)

/-- Body of `handle_response` after the 4-byte header strip: the sequence of
gauge updates it performs, and the decode error if one was raised. -/
def hrData (data : List Nat) : List Event × Option DecodeError :=
  andThen (setStep Event.setVoltage
      (convert (pySlice data 0 2) true 0 20 (mkRat 1 100) (mkRat 0 1)))
  (andThen (setStep Event.setCurrent
      (convert (pySlice data 2 4) true (-200) 200 (mkRat 1 100) (mkRat 0 1)))
  (andThen (setStep (Event.setCapacity CapacityKind.remaining)
      (convert (pySlice data 4 6) true 0 200 (mkRat 1 100) (mkRat 0 1)))
  (andThen (setStep (Event.setCapacity CapacityKind.full)
      (convert (pySlice data 6 8) true 0 200 (mkRat 1 100) (mkRat 0 1)))
  (andThen (setStep Event.setCycles
      (convert (pySlice data 8 10) true 0 100000 (mkRat 1 1) (mkRat 0 1)))
  (andThen (tempLoopAux data 0 (bytesToNat (pySlice data 22 23)))
  ([Event.setLastFetch], none))))))

/-- The `handle_response` method: strips the 4-byte header and decodes the
fixed field layout, publishing each gauge as it goes and finally setting the
last-fetch timestamp. -/
def handleResponse (frame : List Nat) : List Event × Option DecodeError :=
  hrData (frame.drop 4)

/-- The `notification_handler` method: appends the chunk to the global
buffer; when the buffer ends with the terminator byte 0x77 it parses the
whole buffer, catching any decode error and logging it with the offending
bytes, then clears the buffer.  Returns the new buffer and the events. -/
def notificationHandler (buf chunk : List Nat) : List Nat × List Event :=
  if (buf ++ chunk).getLast? = some 119 then
    match handleResponse (buf ++ chunk) with
    | (evs, some _) => ([], evs ++ [Event.logError (buf ++ chunk)])
    | (evs, none) => ([], evs)
  else (buf ++ chunk, [])

/-- The frame-assembly portion of `notification_handler`: the frames it
hands to `handle_response` and the buffer it keeps. -/
def feed (buf chunk : List Nat) : List Nat × List (List Nat) :=
  if (buf ++ chunk).getLast? = some 119 then ([], [buf ++ chunk])
  else (buf ++ chunk, [])

/-- Iterated feeding of notification chunks, collecting all emitted
frames. -/
def feedAll : List Nat → List (List Nat) → List Nat × List (List Nat)
  | buf, [] => (buf, [])
  | buf, c :: cs =>
      ((feedAll (feed buf c).1 cs).1, (feed buf c).2 ++ (feedAll (feed buf c).1 cs).2)

/-- The fixed outbound status-request command written by `poll`. -/
def statusRequest : List Nat := [0xDD, 0xA5, 0x03, 0x00, 0xFF, 0xFD, 0x77]

/-- Trace of `poll` after `n` iterations of its write loop: subscribe to
notifications, settle for 3 seconds, then each round write the status
request and sleep 10 seconds.  The loop has no exit of its own; a session
ends only when the transport raises. -/
def pollEvents : Nat → List Event
  | 0 => [Event.subscribe, Event.sleep 3]
  | Nat.succ n => pollEvents n ++ [Event.write statusRequest, Event.sleep 10]

/-- Outcome of one `poll` session as seen by `main`: either the transport
raised BleakError, or the session returned. -/
inductive Outcome where
  | success
  | failure
deriving DecidableEq

/-- Whether an outcome is a transport failure. -/
def isFailure : Outcome → Bool
  | Outcome.failure => true
  | Outcome.success => false

/-- State of the reconnection loop of `main`: the current backoff, the
error counter, and the log of sleeps performed so far. -/
structure SupState where
  backoff : Nat
  errors : Nat
  sleeps : List Nat
deriving DecidableEq

/-- One iteration of the while-true loop of `main`: on BleakError the
counter is bumped, the loop sleeps for the current backoff, and the backoff
doubles with ceiling 120; on a session that returns, the backoff resets
to 1. -/
def supStep (s : SupState) : Outcome → SupState
  | Outcome.success => SupState.mk 1 s.errors s.sleeps
  | Outcome.failure =>
      SupState.mk (min (s.backoff * 2) 120) (s.errors + 1) (s.sleeps ++ [s.backoff])

/-- The reconnection loop run over a sequence of session outcomes. -/
def runSup (s : SupState) (os : List Outcome) : SupState :=
  os.foldl supStep s

/-- The state `main` starts from: backoff 1, no errors, no sleeps yet. -/
def initSup : SupState := SupState.mk 1 0 []

/-- The post-header view of a frame, as rebound by `data = data[4:]`. -/
def frameData (frame : List Nat) : List Nat := frame.drop 4

/-- The voltage value of a post-header payload. -/
def voltageVal (data : List Nat) : ℚ :=
  convVal (pySlice data 0 2) true (mkRat 1 100) (mkRat 0 1)

/-- The current value of a post-header payload. -/
def currentVal (data : List Nat) : ℚ :=
  convVal (pySlice data 2 4) true (mkRat 1 100) (mkRat 0 1)

/-- The remaining-capacity value of a post-header payload. -/
def capRemVal (data : List Nat) : ℚ :=
  convVal (pySlice data 4 6) true (mkRat 1 100) (mkRat 0 1)

/-- The full-capacity value of a post-header payload. -/
def capFullVal (data : List Nat) : ℚ :=
  convVal (pySlice data 6 8) true (mkRat 1 100) (mkRat 0 1)

/-- The cycle-count value of a post-header payload. -/
def cyclesVal (data : List Nat) : ℚ :=
  convVal (pySlice data 8 10) true (mkRat 1 1) (mkRat 0 1)

/-- The declared temperature count of a post-header payload. -/
def tempCount (data : List Nat) : Nat := bytesToNat (pySlice data 22 23)

/-- The i-th temperature value of a post-header payload. -/
def tempVal (data : List Nat) (i : Nat) : ℚ :=
  convVal (pySlice data (23 + i * 2) (i * 2 + 25)) false (mkRat 1 10)
    (mkRat (-2731) 1)

/-- Synthetic frame of the round-trip test: header 1 2 3 4, voltage raw
1500, current raw -300, capacities raw 100 and 150, cycles 42, twelve
filler bytes, temperature count 2, temperature raws 2731 and 3000, then the
terminator. -/
def synthFrame : List Nat :=
  [1, 2, 3, 4, 5, 220, 254, 212, 0, 100, 0, 150, 0, 42,
   0, 0, 0, 0, 0, 0, 0, 0, 0, 0, 0, 0, 2, 10, 171, 11, 184, 119]

/-- Frame whose voltage decodes in range but whose current raw 30000 is out
of range after scaling. -/
def overCurrentFrame : List Nat := [0, 0, 0, 0, 5, 220, 117, 48, 119]

/-- Frame that declares a nonzero temperature count but ends immediately,
so the first temperature slice is empty and decodes out of range. -/
def truncatedFrame : List Nat := List.replicate 26 0 ++ [119]

/-- Decidable equality of decode results, used to evaluate the model on
concrete frames. -/
instance : DecidableEq (Except DecodeError ℚ) := fun a b =>
  match a, b with
  | Except.ok x, Except.ok y =>
      if h : x = y then isTrue (by rw [h]) else isFalse fun hc => h (Except.ok.inj hc)
  | Except.error x, Except.error y =>
      if h : x = y then isTrue (by rw [h]) else isFalse fun hc => h (Except.error.inj hc)
  | Except.ok x, Except.error y => isFalse fun hc => Except.noConfusion hc
  | Except.error x, Except.ok y => isFalse fun hc => Except.noConfusion hc

/-- The value computed by `convert` is exactly `(raw + offset) * scale`,
the formula of the source. -/
theorem convVal_formula (data : List Nat) (signed : Bool) (scale offset : ℚ) :
    convVal data signed scale offset =
      ((bytesToInt data signed : ℚ) + offset) * scale := by
  have hdo : ((offset.den : ℚ)) ≠ 0 := Nat.cast_ne_zero.mpr offset.den_nz
  have hds : ((scale.den : ℚ)) ≠ 0 := Nat.cast_ne_zero.mpr scale.den_nz
  have hs : (scale.num : ℚ) = scale * (scale.den : ℚ) :=
    (div_eq_iff hds).mp (Rat.num_div_den scale)
  have ho : (offset.num : ℚ) = offset * (offset.den : ℚ) :=
    (div_eq_iff hdo).mp (Rat.num_div_den offset)
  unfold convVal
  rw [Rat.mkRat_eq_div]
  push_cast
  rw [div_eq_iff (mul_ne_zero hdo hds), hs, ho]
  ring

/-- When the computed value lies within the closed interval, `convert`
returns it unchanged. -/
theorem convert_ok (data : List Nat) (signed : Bool) (minVal maxVal scale offset : ℚ)
    (h1 : minVal ≤ convVal data signed scale offset)
    (h2 : convVal data signed scale offset ≤ maxVal) :
    convert data signed minVal maxVal scale offset =
      Except.ok (convVal data signed scale offset) := by
  unfold convert
  rw [if_neg (not_lt.mpr h1), if_neg (not_lt.mpr h2)]

/-- Simp lemma: a successful field decode publishes the single update. -/
@[simp] theorem setStep_ok (mk : ℚ → Event) (v : ℚ) :
    setStep mk (Except.ok v) = ([mk v], none) := rfl

/-- Simp lemma: a failed field decode publishes nothing and raises. -/
@[simp] theorem setStep_error (mk : ℚ → Event) (e : DecodeError) :
    setStep mk (Except.error e) = ([], some e) := rfl

/-- Simp lemma: sequencing after a normally completed statement. -/
@[simp] theorem andThen_none (evs : List Event) (k : List Event × Option DecodeError) :
    andThen (evs, none) k = (evs ++ k.1, k.2) := rfl

/-- Simp lemma: sequencing after a raised exception. -/
@[simp] theorem andThen_some (evs : List Event) (e : DecodeError)
    (k : List Event × Option DecodeError) :
    andThen (evs, some e) k = (evs, some e) := rfl

/-- Every event of a sequenced computation comes from one of its parts. -/
theorem mem_of_mem_andThen {e : Event} {r k : List Event × Option DecodeError}
    (h : e ∈ (andThen r k).1) : e ∈ r.1 ∨ e ∈ k.1 := by
  rcases r with ⟨evs, err⟩
  cases err with
  | none => exact List.mem_append.mp h
  | some x => exact Or.inl h

/-- An event absent from both parts is absent from their sequencing. -/
theorem not_mem_andThen {e : Event} {r k : List Event × Option DecodeError}
    (hr : e ∉ r.1) (hk : e ∉ k.1) : e ∉ (andThen r k).1 := by
  intro h
  rcases mem_of_mem_andThen h with h1 | h1
  · exact hr h1
  · exact hk h1

/-- Every event published by a single gauge statement was built by its
constructor. -/
theorem mem_setStep {e : Event} {mk : ℚ → Event} {r : Except DecodeError ℚ}
    (h : e ∈ (setStep mk r).1) : ∃ v, e = mk v := by
  cases r with
  | ok v => exact ⟨v, List.mem_singleton.mp h⟩
  | error x => simp [setStep] at h

/-- A gauge statement never publishes an event its constructor cannot
build. -/
theorem setStep_not_mem {e : Event} {mk : ℚ → Event} {r : Except DecodeError ℚ}
    (h : ∀ v, mk v ≠ e) : e ∉ (setStep mk r).1 := by
  intro hm
  rcases mem_setStep hm with ⟨v, hv⟩
  exact h v hv.symm

/-- The temperature loop publishes only temperature updates. -/
theorem tempLoopAux_mem (data : List Nat) :
    ∀ (n i : Nat) (e : Event), e ∈ (tempLoopAux data i n).1 →
      ∃ j v, e = Event.setTemperature j v := by
  intro n
  induction n with
  | zero => intro i e h; simp [tempLoopAux] at h
  | succ m ih =>
      intro i e h
      rcases mem_of_mem_andThen h with h1 | h1
      · rcases mem_setStep h1 with ⟨v, hv⟩
        exact ⟨i, v, hv⟩
      · exact ih (i + 1) e h1

/-- The temperature loop never sets the last-fetch gauge. -/
theorem tempLoopAux_no_lastFetch (data : List Nat) (n i : Nat) :
    Event.setLastFetch ∉ (tempLoopAux data i n).1 := by
  intro h
  rcases tempLoopAux_mem data n i Event.setLastFetch h with ⟨j, v, hv⟩
  exact Event.noConfusion hv

/-- The temperature loop never touches the error counter. -/
theorem tempLoopAux_no_errorInc (data : List Nat) (n i : Nat) :
    Event.errorInc ∉ (tempLoopAux data i n).1 := by
  intro h
  rcases tempLoopAux_mem data n i Event.errorInc h with ⟨j, v, hv⟩
  exact Event.noConfusion hv

/-- Propagation of not publishing the last-fetch gauge on error through one
sequencing step. -/
theorem err_andThen_no_lastFetch {r k : List Event × Option DecodeError}
    (hr : Event.setLastFetch ∉ r.1)
    (hk : ∀ e, k.2 = some e → Event.setLastFetch ∉ k.1) :
    ∀ e, (andThen r k).2 = some e → Event.setLastFetch ∉ (andThen r k).1 := by
  rcases r with ⟨evs, err⟩
  cases err with
  | some x => intro e h; exact hr
  | none =>
      intro e h hm
      rcases List.mem_append.mp hm with h1 | h1
      · exact hr h1
      · exact hk e h h1

/-- When `handle_response` raises, the last-fetch timestamp has not been
set: the measurement set is never published as complete. -/
theorem hrData_error_no_lastFetch (data : List Nat) :
    ∀ e, (hrData data).2 = some e → Event.setLastFetch ∉ (hrData data).1 := by
  unfold hrData
  refine err_andThen_no_lastFetch (setStep_not_mem fun v h => Event.noConfusion h) ?_
  refine err_andThen_no_lastFetch (setStep_not_mem fun v h => Event.noConfusion h) ?_
  refine err_andThen_no_lastFetch (setStep_not_mem fun v h => Event.noConfusion h) ?_
  refine err_andThen_no_lastFetch (setStep_not_mem fun v h => Event.noConfusion h) ?_
  refine err_andThen_no_lastFetch (setStep_not_mem fun v h => Event.noConfusion h) ?_
  refine err_andThen_no_lastFetch (tempLoopAux_no_lastFetch data _ 0) ?_
  intro e h
  exact absurd h (by simp)

/-- The last-fetch shape lemma lifted to `handle_response`. -/
theorem handleResponse_error_no_lastFetch (frame : List Nat) :
    ∀ e, (handleResponse frame).2 = some e →
      Event.setLastFetch ∉ (handleResponse frame).1 :=
  hrData_error_no_lastFetch (frame.drop 4)

/-- The parser never touches the error counter. -/
theorem hrData_no_errorInc (data : List Nat) :
    Event.errorInc ∉ (hrData data).1 := by
  unfold hrData
  refine not_mem_andThen (setStep_not_mem fun v h => Event.noConfusion h) ?_
  refine not_mem_andThen (setStep_not_mem fun v h => Event.noConfusion h) ?_
  refine not_mem_andThen (setStep_not_mem fun v h => Event.noConfusion h) ?_
  refine not_mem_andThen (setStep_not_mem fun v h => Event.noConfusion h) ?_
  refine not_mem_andThen (setStep_not_mem fun v h => Event.noConfusion h) ?_
  refine not_mem_andThen (tempLoopAux_no_errorInc data _ 0) ?_
  simp

/-- Claim C4: `convert` accepts exactly the closed interval: a result is
returned unchanged exactly when `min ≤ result ≤ max`, rejection happens only
for results strictly below `min` or strictly above `max`, and at the cited
boundary voltage raw 2000 (result 20.00) is accepted while raw 2001
(result 20.01) is rejected rather than clamped. -/
theorem convert_range_boundary :
    (∀ (data : List Nat) (s : Bool) (mn mx sc off r : ℚ),
        convert data s mn mx sc off = Except.ok r ↔
          r = convVal data s sc off ∧
            mn ≤ convVal data s sc off ∧ convVal data s sc off ≤ mx) ∧
    convert [7, 208] true 0 20 (mkRat 1 100) (mkRat 0 1) = Except.ok 20 ∧
    convert [7, 209] true 0 20 (mkRat 1 100) (mkRat 0 1) =
      Except.error (DecodeError.aboveMax (mkRat 2001 100) 20) := by
  refine ⟨?_, by decide, by decide⟩
  intro data s mn mx sc off r
  unfold convert
  by_cases h1 : convVal data s sc off < mn
  · rw [if_pos h1]
    constructor
    · intro h; exact Except.noConfusion h
    · rintro ⟨h2, h3, h4⟩; exact absurd h1 (not_lt.mpr h3)
  · rw [if_neg h1]
    by_cases h2 : convVal data s sc off > mx
    · rw [if_pos h2]
      constructor
      · intro h; exact Except.noConfusion h
      · rintro ⟨h3, h4, h5⟩; exact absurd h2 (not_lt.mpr h5)
    · rw [if_neg h2]
      constructor
      · intro h; exact ⟨(Except.ok.inj h).symm, not_lt.mp h1, not_lt.mp h2⟩
      · rintro ⟨h3, h4, h5⟩; rw [h3]

/-- Claim C9: any frame too short to contain even the fixed fields (length
at most 4, so the post-header payload is empty) parses successfully: every
empty slice decodes to 0, which is inside every configured range, so zero
values are published for voltage, current, both capacities and cycles, no
temperatures are published, and the last-fetch timestamp is updated. -/
theorem short_frame_parses_to_zeros (frame : List Nat) (h : frame.length ≤ 4) :
    handleResponse frame =
      ([Event.setVoltage 0, Event.setCurrent 0,
        Event.setCapacity CapacityKind.remaining 0,
        Event.setCapacity CapacityKind.full 0,
        Event.setCycles 0, Event.setLastFetch], none) := by
  have hd : frame.drop 4 = [] := List.drop_eq_nil_of_le h
  unfold handleResponse
  rw [hd]
  decide

/-- Witness for C9: the minimal frame consisting of the terminator byte
alone parses to the all-zero measurement set, with the timestamp updated. -/
theorem short_frame_parses_to_zeros_witness :
    handleResponse [119] =
      ([Event.setVoltage 0, Event.setCurrent 0,
        Event.setCapacity CapacityKind.remaining 0,
        Event.setCapacity CapacityKind.full 0,
        Event.setCycles 0, Event.setLastFetch], none) :=
  short_frame_parses_to_zeros [119] (by decide)

/-- Counterexample to claim C2: on a frame whose voltage is in range but
whose current is out of range, the decode of the frame fails, yet the
voltage measurement has already been published to the metrics sink before
the failure. -/
theorem published_measurement_despite_decode_error :
    (handleResponse overCurrentFrame).2 = some (DecodeError.aboveMax 300 200) ∧
    Event.setVoltage 15 ∈ (notificationHandler [] overCurrentFrame).2 := by
  constructor
  · decide
  · decide

/-- Claim C2 as amended: when some field decode fails, parsing yields a
single decode error for the frame and the measurement set is never
published as complete (the last-fetch timestamp is not set); fields decoded
before the failing one, however, have already been published. -/
theorem decode_error_no_complete_publication (frame : List Nat) (e : DecodeError)
    (h : (handleResponse frame).2 = some e) :
    Event.setLastFetch ∉ (handleResponse frame).1 :=
  handleResponse_error_no_lastFetch frame e h

/-- Witness for the amended C2 at the over-range current frame. -/
theorem decode_error_no_complete_publication_witness :
    Event.setLastFetch ∉ (handleResponse overCurrentFrame).1 :=
  decode_error_no_complete_publication overCurrentFrame
    (DecodeError.aboveMax 300 200) (by decide)

/-- Closed form of the temperature loop when every decoded temperature lies
within the configured range. -/
theorem tempLoopAux_ok (data : List Nat) :
    ∀ (n i : Nat),
      (∀ j, j < n → -30 ≤ tempVal data (i + j) ∧ tempVal data (i + j) ≤ 100) →
      tempLoopAux data i n =
        ((List.range' i n).map fun j => Event.setTemperature j (tempVal data j),
          none) := by
  intro n
  induction n with
  | zero => intro i h; rfl
  | succ m ih =>
      intro i h
      have h0 : -30 ≤ tempVal data i ∧ tempVal data i ≤ 100 := by
        simpa using h 0 (Nat.succ_pos m)
      have hc : convert (pySlice data (23 + i * 2) (i * 2 + 25)) false (-30) 100
          (mkRat 1 10) (mkRat (-2731) 1) = Except.ok (tempVal data i) :=
        convert_ok _ _ _ _ _ _ h0.1 h0.2
      have hshift : ∀ j, j < m →
          -30 ≤ tempVal data (i + 1 + j) ∧ tempVal data (i + 1 + j) ≤ 100 := by
        intro j hj
        have he : i + 1 + j = i + (j + 1) := by omega
        rw [he]
        exact h (j + 1) (Nat.succ_lt_succ hj)
      show andThen (setStep (Event.setTemperature i)
          (convert (pySlice data (23 + i * 2) (i * 2 + 25)) false (-30) 100
            (mkRat 1 10) (mkRat (-2731) 1))) (tempLoopAux data (i + 1) m) = _
      rw [hc, ih (i + 1) hshift]
      simp [List.range'_succ]

/-- Claim C1: on every frame whose fields all lie in range, the parser
decodes each field from its fixed byte slice as a big-endian integer with
`(raw + offset) * scale` applied, publishing voltage, current, both
capacities, cycles, the declared temperatures in order, and the last-fetch
timestamp, with no error. -/
theorem handle_response_decodes_fields (frame : List Nat)
    (h1 : 0 ≤ voltageVal (frameData frame) ∧ voltageVal (frameData frame) ≤ 20)
    (h2 : -200 ≤ currentVal (frameData frame) ∧ currentVal (frameData frame) ≤ 200)
    (h3 : 0 ≤ capRemVal (frameData frame) ∧ capRemVal (frameData frame) ≤ 200)
    (h4 : 0 ≤ capFullVal (frameData frame) ∧ capFullVal (frameData frame) ≤ 200)
    (h5 : 0 ≤ cyclesVal (frameData frame) ∧ cyclesVal (frameData frame) ≤ 100000)
    (h6 : ∀ i, i < tempCount (frameData frame) →
        -30 ≤ tempVal (frameData frame) i ∧ tempVal (frameData frame) i ≤ 100) :
    handleResponse frame =
      ([Event.setVoltage (voltageVal (frameData frame)),
        Event.setCurrent (currentVal (frameData frame)),
        Event.setCapacity CapacityKind.remaining (capRemVal (frameData frame)),
        Event.setCapacity CapacityKind.full (capFullVal (frameData frame)),
        Event.setCycles (cyclesVal (frameData frame))]
        ++ (List.range (tempCount (frameData frame))).map
            (fun i => Event.setTemperature i (tempVal (frameData frame) i))
        ++ [Event.setLastFetch], none) := by
  have e1 : convert (pySlice (frameData frame) 0 2) true 0 20 (mkRat 1 100)
      (mkRat 0 1) = Except.ok (voltageVal (frameData frame)) :=
    convert_ok _ _ _ _ _ _ h1.1 h1.2
  have e2 : convert (pySlice (frameData frame) 2 4) true (-200) 200 (mkRat 1 100)
      (mkRat 0 1) = Except.ok (currentVal (frameData frame)) :=
    convert_ok _ _ _ _ _ _ h2.1 h2.2
  have e3 : convert (pySlice (frameData frame) 4 6) true 0 200 (mkRat 1 100)
      (mkRat 0 1) = Except.ok (capRemVal (frameData frame)) :=
    convert_ok _ _ _ _ _ _ h3.1 h3.2
  have e4 : convert (pySlice (frameData frame) 6 8) true 0 200 (mkRat 1 100)
      (mkRat 0 1) = Except.ok (capFullVal (frameData frame)) :=
    convert_ok _ _ _ _ _ _ h4.1 h4.2
  have e5 : convert (pySlice (frameData frame) 8 10) true 0 100000 (mkRat 1 1)
      (mkRat 0 1) = Except.ok (cyclesVal (frameData frame)) :=
    convert_ok _ _ _ _ _ _ h5.1 h5.2
  have h6z : ∀ j, j < tempCount (frameData frame) →
      -30 ≤ tempVal (frameData frame) (0 + j) ∧
        tempVal (frameData frame) (0 + j) ≤ 100 := by
    intro j hj
    rw [Nat.zero_add]
    exact h6 j hj
  have e6 : tempLoopAux (frameData frame) 0
        (bytesToNat (pySlice (frameData frame) 22 23)) =
      ((List.range' 0 (tempCount (frameData frame))).map
        (fun j => Event.setTemperature j (tempVal (frameData frame) j)), none) :=
    tempLoopAux_ok (frameData frame) (tempCount (frameData frame)) 0 h6z
  show hrData (frameData frame) = _
  unfold hrData
  rw [e1, e2, e3, e4, e5, e6]
  simp [List.range_eq_range']

/-- Witness for C1: the synthetic round-trip frame parses to voltage 15.00,
current -3.00, capacities 1.00 and 1.50, cycles 42 and temperatures 0.0
and 26.9. -/
theorem handle_response_decodes_fields_witness :
    handleResponse synthFrame =
      ([Event.setVoltage 15, Event.setCurrent (-3),
        Event.setCapacity CapacityKind.remaining 1,
        Event.setCapacity CapacityKind.full (mkRat 3 2),
        Event.setCycles 42,
        Event.setTemperature 0 0, Event.setTemperature 1 (mkRat 269 10),
        Event.setLastFetch], none) := by
  have h := handle_response_decodes_fields synthFrame (by decide) (by decide)
    (by decide) (by decide) (by decide) (by decide)
  exact h.trans (by decide)

/-- Claim C6: when the parse of a complete frame raises a decode error, the
error is caught at the frame-handling boundary: the handler returns
normally with the buffer cleared, a log entry carrying the offending frame
bytes is emitted after the partial updates, and the measurement set is
never published as complete. -/
theorem decode_failure_caught_and_logged (buf chunk : List Nat) (e : DecodeError)
    (hw : (buf ++ chunk).getLast? = some 119)
    (he : (handleResponse (buf ++ chunk)).2 = some e) :
    notificationHandler buf chunk =
      ([], (handleResponse (buf ++ chunk)).1 ++ [Event.logError (buf ++ chunk)]) ∧
    Event.setLastFetch ∉ (handleResponse (buf ++ chunk)).1 := by
  refine ⟨?_, handleResponse_error_no_lastFetch (buf ++ chunk) e he⟩
  unfold notificationHandler
  rw [if_pos hw]
  cases hq : handleResponse (buf ++ chunk) with
  | mk evs err =>
      rw [hq] at he
      replace he : err = some e := by simpa using he
      subst he
      rfl

/-- Witness for C6 at the truncated frame, whose declared temperature count
exceeds the bytes present. -/
theorem decode_failure_caught_and_logged_witness :
    notificationHandler [] truncatedFrame =
      ([], (handleResponse ([] ++ truncatedFrame)).1 ++
        [Event.logError ([] ++ truncatedFrame)]) ∧
    Event.setLastFetch ∉ (handleResponse ([] ++ truncatedFrame)).1 :=
  decode_failure_caught_and_logged [] truncatedFrame
    (DecodeError.belowMin (mkRat (-2731) 10) (-30)) (by decide) (by decide)

/-- Counterexample to claim C3: a single chunk containing two
terminator-delimited frames is emitted as ONE frame spanning the whole
chunk, not as two frames. -/
theorem two_frames_one_chunk_counterexample :
    feed [] [65, 66, 119, 67, 68, 119] = ([], [[65, 66, 119, 67, 68, 119]]) ∧
    (feed [] [65, 66, 119, 67, 68, 119]).2 ≠ [[65, 66, 119], [67, 68, 119]] ∧
    (feed [] [65, 66, 119, 67, 68, 119]).2.length = 1 := by
  refine ⟨by decide, by decide, by decide⟩

/-- Claim C3 as amended: a single chunk holding two terminator-delimited
messages yields exactly one frame equal to the whole chunk (the handler
only tests whether the buffer ends with the terminator and never splits on
an embedded one), leaving the buffer empty; feeding the chunks AB then
CD-terminator yields exactly one frame ABCD-terminator; and no single feed
ever emits more than one frame. -/
theorem frame_assembly_behavior :
    feed [] [65, 66, 119, 67, 68, 119] = ([], [[65, 66, 119, 67, 68, 119]]) ∧
    feedAll [] [[65, 66], [67, 68, 119]] = ([], [[65, 66, 67, 68, 119]]) ∧
    ∀ buf chunk : List Nat, (feed buf chunk).2.length ≤ 1 := by
  refine ⟨by decide, by decide, ?_⟩
  intro buf chunk
  unfold feed
  by_cases hc : (buf ++ chunk).getLast? = some 119
  · rw [if_pos hc]; simp
  · rw [if_neg hc]; simp

/-- The frame assembler conserves bytes: the frames emitted so far followed
by the current buffer are exactly the bytes received. -/
theorem feedAll_assembles : ∀ (chunks : List (List Nat)) (buf : List Nat),
    (feedAll buf chunks).2.flatten ++ (feedAll buf chunks).1 = buf ++ chunks.flatten := by
  intro chunks
  induction chunks with
  | nil => intro buf; simp [feedAll]
  | cons c cs ih =>
      intro buf
      show ((feed buf c).2 ++ (feedAll (feed buf c).1 cs).2).flatten ++
          (feedAll (feed buf c).1 cs).1 = buf ++ (c :: cs).flatten
      rw [List.flatten_append, List.append_assoc, ih ((feed buf c).1)]
      by_cases hc : (buf ++ c).getLast? = some 119
      · unfold feed
        rw [if_pos hc]
        simp [List.append_assoc]
      · unfold feed
        rw [if_neg hc]
        simp [List.append_assoc]

/-- Claim C7: the buffer always holds exactly the unconsumed tail of the
bytes received since the last emitted frame; whenever a feed emits a frame
the buffer is left empty, the handler clears the buffer on every complete
frame whether or not it parsed, and feeding nothing yields nothing. -/
theorem frame_buffer_invariant :
    (∀ chunks : List (List Nat),
        (feedAll [] chunks).2.flatten ++ (feedAll [] chunks).1 = chunks.flatten) ∧
    (∀ buf chunk : List Nat, (feed buf chunk).2 ≠ [] → (feed buf chunk).1 = []) ∧
    (∀ buf chunk : List Nat, (buf ++ chunk).getLast? = some 119 →
        (notificationHandler buf chunk).1 = []) ∧
    (∀ buf : List Nat, feedAll buf [] = (buf, [])) := by
  refine ⟨fun chunks => by simpa using feedAll_assembles chunks [], ?_, ?_,
    fun buf => rfl⟩
  · intro buf chunk h
    unfold feed at h ⊢
    by_cases hc : (buf ++ chunk).getLast? = some 119
    · rw [if_pos hc]
    · rw [if_neg hc] at h
      simp at h
  · intro buf chunk h
    unfold notificationHandler
    rw [if_pos h]
    cases hq : handleResponse (buf ++ chunk) with
    | mk evs err => cases err <;> rfl

/-- Witness for C7 at a concrete terminated feed. -/
theorem frame_buffer_invariant_witness :
    (feed [] [65, 119]).1 = [] ∧ (notificationHandler [] [65, 119]).1 = [] := by
  have h := frame_buffer_invariant
  exact ⟨h.2.1 [] [65, 119] (by decide), h.2.2.1 [] [65, 119] (by decide)⟩

/-- Doubling with a cap commutes with one more doubling step. -/
theorem min_double_cap (a : Nat) : min (min a 120 * 2) 120 = min (a * 2) 120 := by
  omega

/-- Unfolding one trailing iteration of the reconnection loop. -/
theorem runSup_append_single (s : SupState) (os : List Outcome) (o : Outcome) :
    runSup s (os ++ [o]) = supStep (runSup s os) o := by
  unfold runSup
  rw [List.foldl_append]
  rfl

/-- Closed form of the supervisor state after `n` consecutive transport
failures from a fresh start. -/
theorem runSup_failures (n : Nat) :
    runSup initSup (List.replicate n Outcome.failure) =
      SupState.mk (min (2 ^ n) 120) n
        ((List.range n).map fun k => min (2 ^ k) 120) := by
  induction n with
  | zero => decide
  | succ m ih =>
      rw [List.replicate_succ', runSup_append_single, ih]
      show SupState.mk (min (min (2 ^ m) 120 * 2) 120) (m + 1)
          (((List.range m).map fun k => min (2 ^ k) 120) ++ [min (2 ^ m) 120]) = _
      rw [min_double_cap, Nat.pow_succ, List.range_succ, List.map_append]
      rfl

/-- The loop sleeps exactly once per transport failure. -/
theorem runSup_sleeps_count (os : List Outcome) : ∀ s : SupState,
    (runSup s os).sleeps.length = s.sleeps.length + (os.filter isFailure).length := by
  induction os with
  | nil => intro s; simp [runSup]
  | cons o os ih =>
      intro s
      show (runSup (supStep s o) os).sleeps.length = _
      rw [ih (supStep s o)]
      cases o with
      | success => simp [supStep, isFailure]
      | failure => simp [supStep, isFailure]; omega

/-- The error counter advances exactly once per transport failure. -/
theorem runSup_errors_count (os : List Outcome) : ∀ s : SupState,
    (runSup s os).errors = s.errors + (os.filter isFailure).length := by
  induction os with
  | nil => intro s; simp [runSup]
  | cons o os ih =>
      intro s
      show (runSup (supStep s o) os).errors = _
      rw [ih (supStep s o)]
      cases o with
      | success => simp [supStep, isFailure]
      | failure => simp [supStep, isFailure]; omega

/-- Claim C5: across consecutive transport failures with no success the
supervisor sleeps 1, 2, 4, ... capped at 120 (the k-th sleep is
min(2^k, 120)), increments the error counter once per failure, a session
that completes without failure resets the next backoff to 1, and every
processed failure produces a sleep and a continuation of the loop. -/
theorem backoff_doubles_and_resets :
    (∀ n : Nat,
        runSup initSup (List.replicate n Outcome.failure) =
          SupState.mk (min (2 ^ n) 120) n
            ((List.range n).map fun k => min (2 ^ k) 120)) ∧
    (∀ s : SupState, (supStep s Outcome.success).backoff = 1) ∧
    (∀ os : List Outcome,
        (runSup initSup os).sleeps.length = (os.filter isFailure).length) := by
  refine ⟨runSup_failures, fun s => rfl, fun os => ?_⟩
  rw [runSup_sleeps_count os initSup]
  simp [initSup]

/-- Claim C8: the poll trace is subscribe, a fixed settle sleep of 3, then
each iteration writes exactly the 7-byte status request DD A5 03 00 FF FD
77 and sleeps a fixed 10; the loop has no exit transition of its own. -/
theorem poll_writes_status_request :
    statusRequest = [221, 165, 3, 0, 255, 253, 119] ∧
    statusRequest.length = 7 ∧
    ∀ n : Nat, pollEvents n =
      [Event.subscribe, Event.sleep 3] ++
        (List.replicate n [Event.write statusRequest, Event.sleep 10]).flatten := by
  refine ⟨rfl, rfl, ?_⟩
  intro n
  induction n with
  | zero => rfl
  | succ m ih =>
      show pollEvents m ++ [Event.write statusRequest, Event.sleep 10] = _
      rw [ih, List.replicate_succ', List.flatten_append]
      simp

/-- The notification path never touches the error counter. -/
theorem notificationHandler_no_errorInc (buf chunk : List Nat) :
    Event.errorInc ∉ (notificationHandler buf chunk).2 := by
  unfold notificationHandler
  by_cases hc : (buf ++ chunk).getLast? = some 119
  · rw [if_pos hc]
    cases hq : handleResponse (buf ++ chunk) with
    | mk evs err =>
        have hevs : Event.errorInc ∉ evs := by
          have hh := hrData_no_errorInc ((buf ++ chunk).drop 4)
          rw [show hrData ((buf ++ chunk).drop 4) =
            handleResponse (buf ++ chunk) from rfl, hq] at hh
          exact hh
        cases err with
        | some x =>
            intro hm
            rcases List.mem_append.mp hm with h1 | h1
            · exact hevs h1
            · exact Event.noConfusion (List.mem_singleton.mp h1)
        | none => exact hevs
  · rw [if_neg hc]
    simp

/-- Claim C10: the process-wide error counter equals the number of
transport failures, however many frames failed to decode: the supervisor
bumps it once per failure and the notification path never emits an error
counter increment. -/
theorem error_counter_counts_transport_failures :
    (∀ os : List Outcome,
        (runSup initSup os).errors = (os.filter isFailure).length) ∧
    (∀ buf chunk : List Nat,
        Event.errorInc ∉ (notificationHandler buf chunk).2) := by
  refine ⟨fun os => ?_, notificationHandler_no_errorInc⟩
  rw [runSup_errors_count os initSup]
  simp [initSup]

/-- Witness for C10: two transport failures count two errors, and a decode
session emits no counter increment. -/
theorem error_counter_counts_transport_failures_witness :
    (runSup initSup [Outcome.failure, Outcome.failure]).errors = 2 ∧
    Event.errorInc ∉ (notificationHandler [] [119]).2 := by
  have h := error_counter_counts_transport_failures
  exact ⟨(h.1 [Outcome.failure, Outcome.failure]).trans (by decide), h.2 [] [119]⟩

end Fogstar
